import Mathlib

/-!
Shallow embedding of the export/refresh/polling core of
`minder_utils/download/download.py` (class `Downloader`).

Network interaction is made explicit: the server is a record of pure
response functions, and every operation returns a `Trace` recording the
network requests it issued (export submissions with their exact JSON
payloads, status polls, chunk downloads, sleeps, file reads) together
with its outcome.  Python exceptions (`TypeError`, `KeyError`,
`IndexError`, `NameError`) are modelled with an explicit error type, and
the unbounded `while` polling loops are modelled with fuel:
`Err.outOfFuel` means the loop had not terminated within the given
number of iterations.
-/

/-- Timestamp after `pd.to_datetime` parsing: a plain calendar datetime.
Parsing itself is an external concern; the code only ever formats such a
value with `strftime` (`Downloader.convert_to_ISO`). -/
structure DT where
  year : Nat
  month : Nat
  day : Nat
  hour : Nat
  minute : Nat
  second : Nat
deriving DecidableEq, Repr

/-- Zero-padded decimal rendering, as produced by `strftime` field codes. -/
def padNum (w n : Nat) : String :=
  let s := toString n
  String.mk (List.replicate (w - s.length) '0') ++ s

/-- `Downloader.convert_to_ISO`: `pd.to_datetime(date).strftime('%Y-%m-%dT%H:%M:%S.000Z')`. -/
def convertToISO (d : DT) : String :=
  padNum 4 d.year ++ "-" ++ padNum 2 d.month ++ "-" ++ padNum 2 d.day ++ "T" ++
    padNum 2 d.hour ++ ":" ++ padNum 2 d.minute ++ ":" ++ padNum 2 d.second ++ ".000Z"

/-- One CSV data row.  The code keys rows by the `(start_date, id)` column
pair; `value` stands for the remaining payload columns. -/
structure Row where
  start_date : DT
  id : Nat
  value : String
deriving DecidableEq, Repr

/-- The `(start_date, id)` key of a row. -/
def rowKey (r : Row) : DT × Nat := (r.start_date, r.id)

/-- One line of a persisted CSV file: the header line or a data row. -/
inductive Line
  | header
  | row (r : Row)
deriving DecidableEq, Repr

/-- The data rows of a persisted CSV file (what `pd.read_csv` yields). -/
def dataRows (f : List Line) : List Row :=
  f.filterMap (fun l => match l with | .header => none | .row r => some r)

/-- Number of header lines in a persisted CSV file. -/
def headerCount (f : List Line) : Nat :=
  f.countP (fun l => match l with | .header => true | .row _ => false)

/-- Association-list lookup (Python `dict` access / `Path.exists` check). -/
def alistFind {β : Type} : List (String × β) → String → Option β
  | [], _ => none
  | (q, b) :: rest, p => if q = p then some b else alistFind rest p

/-- Association-list update-or-insert. -/
def alistSet {β : Type} : List (String × β) → String → β → List (String × β)
  | [], p, v => [(p, v)]
  | (q, b) :: rest, p, v => if q = p then (p, v) :: rest else (q, b) :: alistSet rest p v

/-- The file system under `save_path`: file name to file content. -/
abbrev FS := List (String × List Line)

/-- `DataFrame.to_csv(path, mode='a', header=not Path(path).exists())`, the
one write primitive used by both `Downloader.export` and
`Downloader.refresh`: appends the rows, creating the file with a header
line exactly when it did not exist before the write. -/
def appendCsv (fs : FS) (path : String) (rows : List Row) : FS :=
  match alistFind fs path with
  | none => alistSet fs path (Line.header :: rows.map Line.row)
  | some f => alistSet fs path (f ++ rows.map Line.row)

/-- The JSON body posted to `POST export`: the `datasets` key mapping each
selected dataset to an empty option object (modelled by the key list),
plus the optional top-level `since` and `until` keys (absent keys are
`none`, never a null value). -/
structure Payload where
  datasets : List String
  since : Option String
  until_ : Option String
deriving DecidableEq, Repr

/-- The `categories` argument of `Downloader._export_request`: the string
sentinel `'all'` or an explicit list of dataset identifiers. -/
inductive Selection
  | all
  | select (cs : List String)
deriving DecidableEq, Repr

/-- The membership test `category in categories or categories == 'all'` of
`_export_request` (line 91). -/
def selMem (sel : Selection) (c : String) : Bool :=
  match sel with
  | .all => true
  | .select cs => cs.contains c

/-- `get_category_names('all')`: every dataset identifier of every catalog
group, concatenated in catalog order. -/
def catNames (catalog : List (String × List String)) : List String :=
  catalog.foldr (fun g acc => g.2 ++ acc) []

/-- The payload built by `_export_request` (lines 83-92): filter the
catalog by the selection, then add `since`/`until` only when given. -/
def exportKeys (catalog : List (String × List String)) (sel : Selection)
    (since until_ : Option DT) : Payload :=
  let base : Payload :=
    { datasets := (catNames catalog).filter (fun c => selMem sel c)
      since := none
      until_ := none }
  let withSince :=
    match since with
    | none => base
    | some d => { base with since := some (convertToISO d) }
  match until_ with
  | none => withSince
  | some d => { withSince with until_ := some (convertToISO d) }

/-- The per-category payload built by `_export_request_parallel`
(lines 148-157): a single dataset with its own `since`/`until`. -/
def exportKeysOne (cat : String) (since until_ : Option DT) : Payload :=
  let base : Payload := { datasets := [cat], since := none, until_ := none }
  let withSince :=
    match since with
    | none => base
    | some d => { base with since := some (convertToISO d) }
  match until_ with
  | none => withSince
  | some d => { withSince with until_ := some (convertToISO d) }

/-- Python exceptions raised by the embedded code. -/
inductive Err
  | invalidArgument
  | invalidDataset (c : String)
  | keyError (k : String)
  | indexError
  | nameError
  | outOfFuel
deriving DecidableEq, Repr

/-- Record of the observable effects of one operation. -/
structure Trace where
  infoGets : Nat := 0
  postedPayloads : List Payload := []
  statusGets : Nat := 0
  exportListGets : Nat := 0
  chunkGets : Nat := 0
  sleeps : Nat := 0
  fileReads : Nat := 0
deriving DecidableEq, Repr

/-- The single-job poll loop of `_export_request` (lines 98-115), driven
by the server's status answers `sched` (query index to HTTP status).
Returns the number of status requests issued inside the loop, the number
of sleeps, and the outcome; the response at index `i` is the one being
examined.  A `202` answer triggers one further status request and one
sleep; any other answer ends the loop. -/
def pollSingleLoop (sched : Nat → Nat) : Nat → Nat → Nat × Nat × Except Err Unit
  | 0, _ => (0, 0, Except.error Err.outOfFuel)
  | fuel + 1, i =>
    if sched i = 202 then
      let (g, s, r) := pollSingleLoop sched fuel (i + 1)
      (g + 1, s + 1, r)
    else (0, 0, Except.ok ())

/-- `_export_request`, lines 97-115: one initial status request, then the
poll loop. -/
def pollSingle (sched : Nat → Nat) (fuel : Nat) : Nat × Nat × Except Err Unit :=
  let (g, s, r) := pollSingleLoop sched fuel 0
  (g + 1, s, r)

/-- `Downloader._export_request`: fetches the catalog, builds one payload
covering every selected dataset (silently skipping identifiers that are
not in the catalog), posts it, and polls the single job until a terminal
status. -/
def exportRequest (catalog : List (String × List String)) (sched : Nat → Nat)
    (sel : Selection) (since until_ : Option DT) (fuel : Nat) :
    Trace × Except Err Unit :=
  let payload := exportKeys catalog sel since until_
  let (g, s, r) := pollSingle sched fuel
  ({ infoGets := 1, postedPayloads := [payload], statusGets := g, sleeps := s }, r)

/-- Client-side record for one tracked job handle in the parallel poll
loop: the `waiting_for` flag, the number of status requests issued for
this handle so far, and the last observed status. -/
structure HState where
  waiting : Bool
  queries : Nat
  status : Option Nat
deriving DecidableEq, Repr

/-- One handle's treatment inside a round of the parallel poll loop
(lines 174-192): a handle no longer waited for is skipped; otherwise its
status is requested and the `waiting_for` flag becomes true exactly for
a `202` answer. -/
def pollStep (sched : Nat → Nat) (h : HState) : HState :=
  if h.waiting then
    let st := sched h.queries
    { waiting := st == 202, queries := h.queries + 1, status := some st }
  else h

/-- One round of the parallel poll loop: every tracked handle, in the
stable `categories_list` order. -/
def pollRound (sched : String → Nat → Nat) (st : List (String × HState)) :
    List (String × HState) :=
  st.map (fun p => (p.1, pollStep (sched p.1) p.2))

/-- `True in list(waiting_for.values())` (line 195). -/
def anyWaiting (st : List (String × HState)) : Bool :=
  st.any (fun p => p.2.waiting)

/-- The `while waiting` loop of `_export_request_parallel` (lines
173-202): run a round; if some handle is still waited for, sleep and
repeat, otherwise stop.  Returns the final handle states, the number of
rounds run and the number of sleeps. -/
def pollLoop (sched : String → Nat → Nat) :
    Nat → List (String × HState) → Nat → Nat →
    Except Err (List (String × HState) × Nat × Nat)
  | 0, _, _, _ => Except.error Err.outOfFuel
  | fuel + 1, st, rounds, sleeps =>
    let st' := pollRound sched st
    if anyWaiting st' then pollLoop sched fuel st' (rounds + 1) (sleeps + 1)
    else Except.ok (st', rounds + 1, sleeps)

/-- Initial tracking state: every handle is waited for and unqueried
(line 171). -/
def mkState (cats : List String) : List (String × HState) :=
  cats.map (fun c => (c, { waiting := true, queries := 0, status := none }))

/-- The validation loop of `_export_request_parallel` (lines 140-142):
the first requested category that is not an available category name. -/
def firstInvalid (avail : List String) : List String → Option String
  | [] => none
  | c :: rest => if avail.contains c then firstInvalid avail rest else some c

/-- Total number of status requests issued across all handles. -/
def totalQueries (st : List (String × HState)) : Nat :=
  st.foldr (fun p acc => p.2.queries + acc) 0

/-- One entry of a job's output manifest: the dataset type, the HTTP
status the chunk URL answers with, and the parsed CSV rows. -/
structure OutRecord where
  dtype : String
  status : Nat
  rows : List Row
deriving DecidableEq, Repr

/-- One server-side export job as listed by `GET export`. -/
structure Job where
  id : String
  output : List OutRecord
deriving DecidableEq, Repr

/-- The server as seen by the client: the catalog document, the status
answer for each category's job at each query index, the job id each
category's status endpoint reports, and the `GET export` job list used
after polling. -/
structure Server where
  catalog : List (String × List String)
  sched : String → Nat → Nat
  jobId : String → String
  exportList : List Job

/-- `Downloader._export_request_parallel`: fetch the catalog names, fail
on the first category not in the catalog, otherwise build and post one
payload per category and poll all jobs together; returns the
`job_id_dict` of every queried handle. -/
def exportRequestParallel (srv : Server)
    (exportDict : List (String × Option DT × Option DT)) (fuel : Nat) :
    Trace × Except Err (List (String × String)) :=
  let cats := exportDict.map (fun e => e.1)
  let avail := catNames srv.catalog
  match firstInvalid avail cats with
  | some c => ({ infoGets := 1 }, Except.error (Err.invalidDataset c))
  | none =>
    let payloads := exportDict.map (fun e => exportKeysOne e.1 e.2.1 e.2.2)
    match pollLoop srv.sched fuel (mkState cats) 0 0 with
    | Except.error e =>
        ({ infoGets := 1, postedPayloads := payloads }, Except.error e)
    | Except.ok (st, _, sleeps) =>
        ({ infoGets := 1, postedPayloads := payloads,
           statusGets := totalQueries st, sleeps := sleeps },
         Except.ok (st.filterMap (fun p =>
           if p.2.queries > 0 then some (p.1, srv.jobId p.1) else none)))

/-- The download loop of `Downloader.export` (lines 273-283): for each
manifest record in order, a failed chunk request (non-200) is reported
and skipped; a successful one is appended to `<type>.csv` with a header
exactly when that file does not exist yet. -/
def exportDownload : List OutRecord → FS → FS
  | [], fs => fs
  | rec :: rest, fs =>
    if rec.status ≠ 200 then exportDownload rest fs
    else exportDownload rest (appendCsv fs (rec.dtype ++ ".csv") rec.rows)

/-- The `categories` argument of `Downloader.refresh`: Python `None`, a
single string, or a list of strings. -/
inductive CategoriesArg
  | noneArg
  | str (s : String)
  | list (l : List String)
deriving DecidableEq, Repr

/-- The "Checking current files" loop of `refresh` (lines 318-331): per
category, if `<category>.csv` does not exist the job gets `since = None`
and no anchor is stored; otherwise the anchor is the `(start_date, id)`
of the last data row (`iloc[-1]`, an `IndexError` on an empty frame) and
`since` is that row's `start_date`.  Returns the `last_rows` dict and
the `export_dict`. -/
def scanFiles (fs : FS) (until_ : Option DT) :
    List String → Except Err (List (String × DT × Nat) × List (String × Option DT × Option DT))
  | [] => Except.ok ([], [])
  | c :: rest =>
    match alistFind fs (c ++ ".csv") with
    | none =>
      match scanFiles fs until_ rest with
      | Except.error e => Except.error e
      | Except.ok (lr, ed) => Except.ok (lr, (c, none, until_) :: ed)
    | some f =>
      match (dataRows f).getLast? with
      | none => Except.error Err.indexError
      | some last =>
        match scanFiles fs until_ rest with
        | Except.error e => Except.error e
        | Except.ok (lr, ed) =>
          Except.ok ((c, last.start_date, last.id) :: lr,
                     (c, some last.start_date, until_) :: ed)

/-- `np.all(current_data[['start_date','id']].iloc[0, :] == last_rows[category])`:
elementwise equality of the first row's key with the anchor. -/
def keyMatches (r : Row) (a : DT × Nat) : Bool :=
  r.start_date == a.1 && r.id == a.2

/-- Processing of one fetched chunk in `refresh` (lines 344-357): a
non-200 chunk is reported and skipped; otherwise the first row
(`iloc[0]`, an `IndexError` on an empty frame) is compared with
`last_rows[category]` (a `KeyError` when no anchor was stored for the
category), the first row is dropped exactly on a match, and the
remainder is appended to `<category>.csv` with a header exactly when
that file does not exist. -/
def mergeChunk (lastRows : List (String × DT × Nat)) (cat : String) (fs : FS)
    (ch : OutRecord) : Except Err FS :=
  if ch.status ≠ 200 then Except.ok fs
  else
    match ch.rows with
    | [] => Except.error Err.indexError
    | r0 :: rest =>
      match alistFind lastRows cat with
      | none => Except.error (Err.keyError cat)
      | some a =>
        if keyMatches r0 a then Except.ok (appendCsv fs (cat ++ ".csv") rest)
        else Except.ok (appendCsv fs (cat ++ ".csv") (r0 :: rest))

/-- The `for data_chunk in output` loop of `refresh`. -/
def mergeChunks (lastRows : List (String × DT × Nat)) (cat : String) (fs : FS) :
    List OutRecord → Except Err FS
  | [] => Except.ok fs
  | ch :: rest =>
    match mergeChunk lastRows cat fs ch with
    | Except.error e => Except.error e
    | Except.ok fs' => mergeChunks lastRows cat fs' rest

/-- `for previous_job in data[::-1]: if previous_job['id'] == job_id`
(lines 339-342): the last job in the export list with the given id. -/
def findJobRev (jobs : List Job) (jid : String) : Option (List OutRecord) :=
  match jobs with
  | [] => none
  | j :: rest =>
    match findJobRev rest jid with
    | some o => some o
    | none => if j.id = jid then some j.output else none

/-- The per-category download-and-merge loop of `refresh` (lines 337-357).
`prevOut` models the Python local variable `output`, which keeps its
value from the previous iteration when the reverse search finds no job
with the current id (a `NameError` if that happens on the first
category).  Returns the final file system and the number of chunk
requests issued. -/
def refreshLoop (srv : Server) (lastRows : List (String × DT × Nat))
    (jobIds : List (String × String)) (fs : FS)
    (prevOut : Option (List OutRecord)) :
    List String → Except Err (FS × Nat)
  | [] => Except.ok (fs, 0)
  | c :: rest =>
    match alistFind jobIds c with
    | none => Except.error (Err.keyError c)
    | some jid =>
      let outFound :=
        match findJobRev srv.exportList jid with
        | some o => some o
        | none => prevOut
      match outFound with
      | none => Except.error Err.nameError
      | some out =>
        match mergeChunks lastRows c fs out with
        | Except.error e => Except.error e
        | Except.ok fs' =>
          match refreshLoop srv lastRows jobIds fs' (some out) rest with
          | Except.error e => Except.error e
          | Except.ok (fs'', n) => Except.ok (fs'', out.length + n)

/-- Body of `Downloader.refresh` after the `categories` normalisation:
scan the existing files, submit and poll the parallel export requests,
fetch the export list, then download and merge per category. -/
def refreshGo (srv : Server) (until_ : Option DT) (cats : List String)
    (fs : FS) (fuel : Nat) : Trace × Except Err FS :=
  match scanFiles fs until_ cats with
  | Except.error e => ({ fileReads := cats.length }, Except.error e)
  | Except.ok (lastRows, exportDict) =>
    let (tr, res) := exportRequestParallel srv exportDict fuel
    match res with
    | Except.error e => ({ tr with fileReads := cats.length }, Except.error e)
    | Except.ok jobIds =>
      match refreshLoop srv lastRows jobIds fs none cats with
      | Except.error e =>
        ({ tr with fileReads := cats.length, exportListGets := 1 }, Except.error e)
      | Except.ok (fs', n) =>
        ({ tr with fileReads := cats.length, exportListGets := 1, chunkGets := n },
         Except.ok fs')

/-- `Downloader.refresh` (lines 285-361): `categories = None` raises a
`TypeError` before anything else; a single string is wrapped into a
one-element list. -/
def refresh (srv : Server) (until_ : Option DT) (categories : CategoriesArg)
    (fs : FS) (fuel : Nat) : Trace × Except Err FS :=
  match categories with
  | .noneArg => ({}, Except.error Err.invalidArgument)
  | .str s => refreshGo srv until_ [s] fs fuel
  | .list l => refreshGo srv until_ l fs fuel

/-- `sched` answers `202` at every query index below `k` and a terminal
(non-`202`) status at index `k`: the handle's status sequence resolves
at its `k`-th query. -/
def firstTerm (sched : Nat → Nat) (k : Nat) : Prop :=
  sched k ≠ 202 ∧ ∀ j, j < k → sched j = 202

/-- Closed form for one handle's tracking state after `n` rounds of the
parallel poll loop, when its status sequence resolves at query `k`. -/
def handleAt (sched : Nat → Nat) (k n : Nat) : HState :=
  { waiting := decide (n ≤ k)
    queries := min n (k + 1)
    status := if n = 0 then none else some (sched (min (n - 1) k)) }

/-- Closed form for the whole tracking state after `n` rounds. -/
def stateAt (sched : String → Nat → Nat) (k : String → Nat) (n : Nat)
    (cats : List String) : List (String × HState) :=
  cats.map (fun c => (c, handleAt (sched c) (k c) n))

/-- Number of rounds the parallel poll loop needs: the largest
`k c + 1` over the tracked handles. -/
def maxRounds (k : String → Nat) (cats : List String) : Nat :=
  cats.foldr (fun c acc => max (k c + 1) acc) 0

/-- Invariant of the parallel poll loop: a handle that is no longer
waited for has an observed terminal (non-`202`) status. -/
def invTerm (st : List (String × HState)) : Prop :=
  ∀ p ∈ st, p.2.waiting = false → ∃ v, p.2.status = some v ∧ v ≠ 202

/-- A status sequence from the C5 scenario: `[202, 202, complete]` for
handles of kind `true`, `[202, failed]` for handles of kind `false`. -/
def schedAB (kind : String → Bool) : String → Nat → Nat :=
  fun c n =>
    if kind c then (if n < 2 then 202 else 200)
    else (if n = 0 then 202 else 500)

/-- Resolution index of a `schedAB` status sequence. -/
def kAB (kind : String → Bool) : String → Nat :=
  fun c => if kind c then 2 else 1

/-- The anchor timestamp `2021-10-06T00:00:00.000Z` of the concrete
refresh scenarios. -/
def T0 : DT := ⟨2021, 10, 6, 0, 0, 0⟩

/-- Server for the two-dataset refresh scenario: both datasets are in the
catalog, every job completes on its first status query, and each job's
manifest holds one successful chunk; the chunk for `raw_activity_pir`
starts with the anchor row `(T0, 42)`. -/
def srvRefresh : Server :=
  { catalog := [("activity", ["raw_activity_pir"]), ("care", ["raw_door_sensor"])]
    sched := fun _ _ => 200
    jobId := fun c => c ++ "-job"
    exportList :=
      [⟨"raw_activity_pir-job",
        [⟨"raw_activity_pir", 200, [⟨T0, 42, "a"⟩, ⟨⟨2021, 10, 7, 1, 2, 3⟩, 43, "b"⟩]⟩]⟩,
       ⟨"raw_door_sensor-job",
        [⟨"raw_door_sensor", 200, [⟨⟨2021, 10, 7, 0, 0, 0⟩, 7, "d"⟩]⟩]⟩] }

/-- File system for the refresh scenarios: `raw_activity_pir.csv` exists
and ends at the anchor row `(T0, 42)`; `raw_door_sensor.csv` is absent. -/
def fsRefresh : FS := [("raw_activity_pir.csv", [Line.header, Line.row ⟨T0, 42, "a"⟩])]

/-- Helper: `firstInvalid` returns a requested category that is indeed
absent from the available names. -/
theorem firstInvalid_mem (avail : List String) :
    ∀ cats c, firstInvalid avail cats = some c →
      c ∈ cats ∧ avail.contains c = false := by
  intro cats
  induction cats with
  | nil => intro c h; simp [firstInvalid] at h
  | cons a rest ih =>
    intro c h
    by_cases ha : avail.contains a
    · simp only [firstInvalid, ha, if_true] at h
      rcases ih c h with ⟨h1, h2⟩
      exact ⟨List.mem_cons_of_mem a h1, h2⟩
    · simp only [firstInvalid, ha, if_false] at h
      cases h
      exact ⟨List.mem_cons_self a rest, by simpa using ha⟩

/-- Helper: the single-job poll loop only ever finishes normally or runs
out of fuel; it raises no exception of its own. -/
theorem pollSingleLoop_no_error (sched : Nat → Nat) :
    ∀ fuel i, (pollSingleLoop sched fuel i).2.2 = Except.ok ()
      ∨ (pollSingleLoop sched fuel i).2.2 = Except.error Err.outOfFuel := by
  intro fuel
  induction fuel with
  | zero => intro i; right; rfl
  | succ f ih =>
    intro i
    by_cases h : sched i = 202
    · simpa [pollSingleLoop, h] using ih (i + 1)
    · left; simp [pollSingleLoop, h]

/-- Helper: the dataset list of the single-export payload does not depend
on the time bounds. -/
theorem exportKeys_datasets (catalog : List (String × List String)) (sel : Selection)
    (since until_ : Option DT) :
    (exportKeys catalog sel since until_).datasets
      = (catNames catalog).filter (fun c => selMem sel c) := by
  cases since <;> cases until_ <;> rfl

/-- C1 (counterexample): `_export_request` called with the selection
`['bogus']` against a catalog that does not contain `bogus` does not
fail with an `InvalidDataset` error and does issue network requests: it
posts an export submission (whose dataset map is empty, the unknown
identifier having been silently dropped) and polls it.  This refutes the
claim that both export operations validate the selection. -/
theorem exportRequest_unknown_dataset_still_posts :
    exportRequest [("activity", ["raw_activity_pir"])] (fun _ => 200)
        (Selection.select ["bogus"]) none none 1
      = ({ infoGets := 1, postedPayloads := [⟨[], none, none⟩],
           statusGets := 1, sleeps := 0 },
         Except.ok ()) := by rfl

/-- C1 (amended): `_export_request_parallel` validates every requested
category against the catalog up front: when some requested category is
absent it fails with an `InvalidDataset` error naming the first such
category, having posted no export submission and issued no status
request (only the catalog lookup itself).  `_export_request`, by
contrast, performs no such validation: it always posts exactly one
export submission, never raises `InvalidDataset`, and an identifier
absent from the catalog is silently omitted from the posted payload. -/
theorem export_validation_amended :
    (∀ (srv : Server) (ed : List (String × Option DT × Option DT)) (fuel : Nat)
        (c : String),
      firstInvalid (catNames srv.catalog) (ed.map (fun e => e.1)) = some c →
        (c ∈ ed.map (fun e => e.1) ∧ (catNames srv.catalog).contains c = false) ∧
        exportRequestParallel srv ed fuel
          = ({ infoGets := 1 }, Except.error (Err.invalidDataset c)))
    ∧ (∀ (catalog : List (String × List String)) (sched : Nat → Nat)
        (sel : Selection) (since until_ : Option DT) (fuel : Nat),
        (exportRequest catalog sched sel since until_ fuel).1.postedPayloads
          = [exportKeys catalog sel since until_]
        ∧ (∀ b, (exportRequest catalog sched sel since until_ fuel).2
            ≠ Except.error (Err.invalidDataset b)))
    ∧ (∀ (catalog : List (String × List String)) (sel : Selection)
        (since until_ : Option DT) (bad : String),
        bad ∉ catNames catalog →
          bad ∉ (exportKeys catalog sel since until_).datasets) := by
  refine ⟨?_, ?_, ?_⟩
  · intro srv ed fuel c h
    refine ⟨firstInvalid_mem _ _ _ h, ?_⟩
    simp only [exportRequestParallel, h]
  · intro catalog sched sel since until_ fuel
    constructor
    · rfl
    · intro b
      have h := pollSingleLoop_no_error sched fuel 0
      simp only [exportRequest, pollSingle]
      rcases h with h | h <;> simp [h]
  · intro catalog sel since until_ bad hbad
    rw [exportKeys_datasets]
    intro hmem
    exact hbad (List.mem_of_mem_filter hmem)

/-- C1 (witness): the amended theorem at a concrete input: requesting the
unknown category `bogus` through the parallel export against the
two-dataset catalog fails with `InvalidDataset 'bogus'` and posts
nothing. -/
theorem export_validation_amended_witness :
    exportRequestParallel srvRefresh [("bogus", none, none)] 1
      = ({ infoGets := 1 }, Except.error (Err.invalidDataset "bogus")) :=
  (export_validation_amended.1 srvRefresh [("bogus", none, none)] 1 "bogus" (by decide)).2

/-- C2 (code bug): refresh over `['raw_activity_pir', 'raw_door_sensor']`
where `raw_activity_pir.csv` exists and ends at the anchor row
`(start_date = 2021-10-06T00:00:00.000Z, id = 42)` and
`raw_door_sensor.csv` is absent.  The two jobs are submitted with the
claimed `since` bounds (the anchor timestamp for the first dataset,
`None` for the second), but the merge step then crashes with a Python
`KeyError('raw_door_sensor')`: `refresh` stores `last_rows[category]`
only for categories with an existing file yet reads it unconditionally,
so the absent dataset's chunk is never appended at all — the code
contradicts the claimed (and spec-mandated) verbatim append. -/
theorem refresh_missing_anchor_keyError :
    refresh srvRefresh none (CategoriesArg.list ["raw_activity_pir", "raw_door_sensor"])
        fsRefresh 2
      = ({ infoGets := 1,
           postedPayloads :=
             [⟨["raw_activity_pir"], some "2021-10-06T00:00:00.000Z", none⟩,
              ⟨["raw_door_sensor"], none, none⟩],
           statusGets := 2, exportListGets := 1, chunkGets := 0, sleeps := 0,
           fileReads := 2 },
         Except.error (Err.keyError "raw_door_sensor")) := by rfl

/-- C7: `refresh` invoked with `categories = None` raises the validation
error immediately: the result is the `TypeError` and the effect trace is
empty — no network request and no file read precedes it. -/
theorem refresh_none_categories_invalidArgument (srv : Server) (until_ : Option DT)
    (fs : FS) (fuel : Nat) :
    refresh srv until_ CategoriesArg.noneArg fs fuel
      = ({}, Except.error Err.invalidArgument) := rfl

/-- C9: in both export payload builders the `since` key is present in the
posted payload exactly when the `since` argument is not `None`, and then
holds `convert_to_ISO` of it; likewise for `until`; and `_export_request`
posts exactly that payload. -/
theorem payload_time_bounds (catalog : List (String × List String)) (sel : Selection)
    (cat : String) (sched : Nat → Nat) (fuel : Nat) (since until_ : Option DT) :
    ((exportKeys catalog sel since until_).since = since.map convertToISO)
    ∧ ((exportKeys catalog sel since until_).until_ = until_.map convertToISO)
    ∧ ((exportKeys catalog sel since until_).since.isSome = since.isSome)
    ∧ ((exportKeys catalog sel since until_).until_.isSome = until_.isSome)
    ∧ ((exportKeysOne cat since until_).since = since.map convertToISO)
    ∧ ((exportKeysOne cat since until_).until_ = until_.map convertToISO)
    ∧ ((exportKeysOne cat since until_).datasets = [cat])
    ∧ ((exportRequest catalog sched sel since until_ fuel).1.postedPayloads
        = [exportKeys catalog sel since until_]) := by
  cases since <;> cases until_ <;>
    simp [exportKeys, exportKeysOne, exportRequest, pollSingle]

/-- C10: `refresh` called with a single string behaves identically to
`refresh` called with the one-element list of that string; the string is
wrapped, not iterated character by character. -/
theorem refresh_string_eq_singleton_list (srv : Server) (until_ : Option DT)
    (s : String) (fs : FS) (fuel : Nat) :
    refresh srv until_ (CategoriesArg.str s) fs fuel
      = refresh srv until_ (CategoriesArg.list [s]) fs fuel := rfl

/-- Helper: data rows of a concatenation. -/
theorem dataRows_append (a b : List Line) :
    dataRows (a ++ b) = dataRows a ++ dataRows b := by
  simp [dataRows, List.filterMap_append]

/-- Helper: data rows of freshly written rows. -/
theorem dataRows_map_row (rows : List Row) : dataRows (rows.map Line.row) = rows := by
  induction rows with
  | nil => rfl
  | cons r rs ih => simpa [dataRows, List.filterMap_cons] using ih

/-- Helper: freshly written data rows contain no header line. -/
theorem headerCount_map_row (rows : List Row) : headerCount (rows.map Line.row) = 0 := by
  induction rows with
  | nil => rfl
  | cons r rs ih =>
    simp only [List.map_cons, headerCount, List.countP_cons] at ih ⊢
    simp [ih]

/-- C3 (amended): for a refresh of a dataset whose persisted file exists
and whose stored anchor is `(T, X)`, a successfully fetched chunk
`r0 :: rest` is merged as follows.  If `r0`'s key equals the anchor, the
file gains exactly `len(chunk) - 1` rows, namely `rest` verbatim — so
none of the gained rows duplicates `(T, X)` provided the anchor key does
not recur in `rest` (the code drops only the first row; a further
occurrence of the anchor key inside the chunk is appended, see the
counterexample).  If `r0`'s key differs from the anchor, the file gains
exactly `len(chunk)` rows. -/
theorem refresh_boundary_dedup_amended
    (lastRows : List (String × DT × Nat)) (cat d : String) (fs : FS) (t : DT)
    (x : Nat) (old : List Line) (r0 : Row) (rest : List Row)
    (hanchor : alistFind lastRows cat = some (t, x))
    (hfile : alistFind fs (cat ++ ".csv") = some old) :
    (keyMatches r0 (t, x) = true →
      mergeChunk lastRows cat fs ⟨d, 200, r0 :: rest⟩
        = Except.ok (alistSet fs (cat ++ ".csv") (old ++ rest.map Line.row))
      ∧ dataRows (old ++ rest.map Line.row) = dataRows old ++ rest
      ∧ (dataRows (old ++ rest.map Line.row)).length
          = (dataRows old).length + ((r0 :: rest).length - 1)
      ∧ ((∀ r ∈ rest, rowKey r ≠ (t, x)) →
          ∀ r ∈ (dataRows (old ++ rest.map Line.row)).drop (dataRows old).length,
            rowKey r ≠ (t, x)))
    ∧ (keyMatches r0 (t, x) = false →
      mergeChunk lastRows cat fs ⟨d, 200, r0 :: rest⟩
        = Except.ok (alistSet fs (cat ++ ".csv") (old ++ (r0 :: rest).map Line.row))
      ∧ dataRows (old ++ (r0 :: rest).map Line.row) = dataRows old ++ (r0 :: rest)
      ∧ (dataRows (old ++ (r0 :: rest).map Line.row)).length
          = (dataRows old).length + (r0 :: rest).length) := by
  constructor
  · intro hmatch
    refine ⟨?_, ?_, ?_, ?_⟩
    · simp [mergeChunk, hanchor, hmatch, appendCsv, hfile]
    · rw [dataRows_append, dataRows_map_row]
    · rw [dataRows_append, dataRows_map_row]
      simp
    · intro hnodup
      rw [dataRows_append, dataRows_map_row, List.drop_left]
      exact hnodup
  · intro hmatch
    refine ⟨?_, ?_, ?_⟩
    · simp [mergeChunk, hanchor, hmatch, appendCsv, hfile]
    · rw [dataRows_append, dataRows_map_row]
    · rw [dataRows_append, dataRows_map_row]
      simp

/-- C3 (counterexample): anchor `(T0, 42)`, fetched chunk of length 2
whose first row matches the anchor and whose second row carries the
anchor key again.  The merged file does gain `len(chunk) - 1 = 1` row,
but that gained row duplicates the anchor key `(T0, 42)` — refuting the
claim that none of the gained rows duplicates `(T, X)`. -/
theorem refresh_boundary_dedup_counterexample :
    mergeChunk [("c", (T0, 42))] "c" [("c.csv", [Line.header, Line.row ⟨T0, 42, "a"⟩])]
        ⟨"c", 200, [⟨T0, 42, "b"⟩, ⟨T0, 42, "x"⟩]⟩
      = Except.ok
          [("c.csv", [Line.header, Line.row ⟨T0, 42, "a"⟩, Line.row ⟨T0, 42, "x"⟩])]
    ∧ rowKey ⟨T0, 42, "x"⟩ = (T0, 42) := by
  constructor <;> rfl

/-- C3 (witness): the amended theorem at a concrete input: a matching
first row is dropped and a non-matching chunk is appended whole. -/
theorem refresh_boundary_dedup_amended_witness :
    mergeChunk [("c", (T0, 42))] "c" [("c.csv", [Line.header, Line.row ⟨T0, 42, "a"⟩])]
        ⟨"c", 200, [⟨T0, 42, "b"⟩, ⟨⟨2021, 10, 7, 0, 0, 0⟩, 43, "y"⟩]⟩
      = Except.ok
          [("c.csv",
            [Line.header, Line.row ⟨T0, 42, "a"⟩,
             Line.row ⟨⟨2021, 10, 7, 0, 0, 0⟩, 43, "y"⟩])] := by
  have h := (refresh_boundary_dedup_amended [("c", (T0, 42))] "c" "c"
    [("c.csv", [Line.header, Line.row ⟨T0, 42, "a"⟩])] T0 42
    [Line.header, Line.row ⟨T0, 42, "a"⟩] ⟨T0, 42, "b"⟩
    [⟨⟨2021, 10, 7, 0, 0, 0⟩, 43, "y"⟩] (by rfl) (by rfl)).1 (by rfl)
  exact h.1

/-- Helper: a chunk whose URL answers non-200 contributes nothing to the
refresh merge of its dataset. -/
theorem mergeChunks_skip_fail (lastRows : List (String × DT × Nat)) (cat : String)
    (fs : FS) (ch : OutRecord) (rest : List OutRecord) (h : ch.status ≠ 200) :
    mergeChunks lastRows cat fs (ch :: rest) = mergeChunks lastRows cat fs rest := by
  simp [mergeChunks, mergeChunk, h]

/-- Helper: when every chunk of a dataset fails, the refresh merge leaves
the whole file system unchanged. -/
theorem mergeChunks_all_fail (lastRows : List (String × DT × Nat)) (cat : String) :
    ∀ (chunks : List OutRecord) (fs : FS), (∀ ch ∈ chunks, ch.status ≠ 200) →
      mergeChunks lastRows cat fs chunks = Except.ok fs := by
  intro chunks
  induction chunks with
  | nil => intro fs _; rfl
  | cons ch rest ih =>
    intro fs h
    rw [mergeChunks_skip_fail _ _ _ _ _ (h ch (List.mem_cons_self ch rest))]
    exact ih fs (fun c hc => h c (List.mem_cons_of_mem ch hc))

/-- C6 (amended): a non-200 response for a manifest entry is skipped
without aborting the remaining entries, in both the export download loop
and the refresh merge loop; the failed chunk itself contributes nothing
to any file.  When every chunk of a dataset's manifest fails, that
dataset's file system is left byte-for-byte unchanged, and the remaining
datasets of the same refresh are processed exactly as if the failed
dataset had not been there.  (The original claim's stronger reading —
any retrieval failure leaves the dataset's file unchanged — is refuted
by the counterexample: when another chunk of the same dataset succeeds,
that chunk is still appended.) -/
theorem retrieval_failure_isolation_amended :
    (∀ (rec : OutRecord) (rest : List OutRecord) (fs : FS), rec.status ≠ 200 →
      exportDownload (rec :: rest) fs = exportDownload rest fs)
    ∧ (∀ (lastRows : List (String × DT × Nat)) (cat : String) (fs : FS)
        (ch : OutRecord) (rest : List OutRecord), ch.status ≠ 200 →
      mergeChunks lastRows cat fs (ch :: rest) = mergeChunks lastRows cat fs rest)
    ∧ (∀ (lastRows : List (String × DT × Nat)) (cat : String)
        (chunks : List OutRecord) (fs : FS), (∀ ch ∈ chunks, ch.status ≠ 200) →
      mergeChunks lastRows cat fs chunks = Except.ok fs)
    ∧ (∀ (lastRows : List (String × DT × Nat)) (catA catB : String)
        (chA chB : List OutRecord) (fs : FS), (∀ ch ∈ chA, ch.status ≠ 200) →
      (match mergeChunks lastRows catA fs chA with
       | Except.error e => Except.error e
       | Except.ok fs1 => mergeChunks lastRows catB fs1 chB)
        = mergeChunks lastRows catB fs chB) := by
  refine ⟨?_, ?_, ?_, ?_⟩
  · intro rec rest fs h
    simp [exportDownload, h]
  · intro lastRows cat fs ch rest h
    exact mergeChunks_skip_fail lastRows cat fs ch rest h
  · intro lastRows cat chunks fs h
    exact mergeChunks_all_fail lastRows cat chunks fs h
  · intro lastRows catA catB chA chB fs h
    rw [mergeChunks_all_fail lastRows catA chA fs h]

/-- C6 (counterexample): a dataset whose manifest holds a successful
chunk followed by a failed one.  The refresh merge skips the failed
chunk but has already appended the successful one, so the dataset's file
is not byte-for-byte unchanged even though a retrieval failure occurred
for that dataset — refuting the claim's unconditional reading. -/
theorem retrieval_failure_counterexample :
    mergeChunks [("c", (T0, 42))] "c" [("c.csv", [Line.header, Line.row ⟨T0, 42, "a"⟩])]
        [⟨"c", 200, [⟨⟨2021, 10, 7, 0, 0, 0⟩, 5, "n"⟩]⟩, ⟨"c", 500, []⟩]
      = Except.ok
          [("c.csv",
            [Line.header, Line.row ⟨T0, 42, "a"⟩,
             Line.row ⟨⟨2021, 10, 7, 0, 0, 0⟩, 5, "n"⟩])]
    ∧ alistFind
        [("c.csv",
          [Line.header, Line.row ⟨T0, 42, "a"⟩,
           Line.row ⟨⟨2021, 10, 7, 0, 0, 0⟩, 5, "n"⟩])] "c.csv"
      ≠ alistFind [("c.csv", [Line.header, Line.row ⟨T0, 42, "a"⟩])] "c.csv" := by
  constructor
  · rfl
  · decide

/-- C6 (witness): the amended theorem at a concrete input: a dataset
whose single chunk fails leaves the file system unchanged. -/
theorem retrieval_failure_isolation_witness :
    mergeChunks [("c", (T0, 42))] "c" [("c.csv", [Line.header, Line.row ⟨T0, 42, "a"⟩])]
        [⟨"c", 500, []⟩]
      = Except.ok [("c.csv", [Line.header, Line.row ⟨T0, 42, "a"⟩])] :=
  retrieval_failure_isolation_amended.2.2.1 [("c", (T0, 42))] "c" [⟨"c", 500, []⟩]
    [("c.csv", [Line.header, Line.row ⟨T0, 42, "a"⟩])] (by decide)

/-- Helper: looking up the key just written. -/
theorem alistFind_set_self {β : Type} (l : List (String × β)) (p : String) (v : β) :
    alistFind (alistSet l p v) p = some v := by
  induction l with
  | nil => simp [alistSet, alistFind]
  | cons e rest ih =>
    by_cases h : e.1 = p
    · simp [alistSet, alistFind, h]
    · simp [alistSet, alistFind, h, ih]

/-- Helper: writing one key leaves lookups of other keys unchanged. -/
theorem alistFind_set_other {β : Type} (l : List (String × β)) (p q : String) (v : β)
    (h : q ≠ p) : alistFind (alistSet l q v) p = alistFind l p := by
  induction l with
  | nil => simp [alistSet, alistFind, h]
  | cons e rest ih =>
    by_cases he : e.1 = q
    · simp [alistSet, alistFind, he, h]
    · simp [alistSet, alistFind, he, ih]

/-- Helper: appending to an absent file creates it with a single leading
header line. -/
theorem appendCsv_find_new (fs : FS) (p : String) (rows : List Row)
    (h : alistFind fs p = none) :
    alistFind (appendCsv fs p rows) p = some (Line.header :: rows.map Line.row) := by
  simp [appendCsv, h, alistFind_set_self]

/-- Helper: appending to an existing file appends the rows and adds no
header line. -/
theorem appendCsv_find_existing (fs : FS) (p : String) (rows : List Row)
    (f : List Line) (h : alistFind fs p = some f) :
    alistFind (appendCsv fs p rows) p = some (f ++ rows.map Line.row) := by
  simp [appendCsv, h, alistFind_set_self]

/-- Helper: a CSV append never touches another file. -/
theorem appendCsv_find_other (fs : FS) (p q : String) (rows : List Row) (h : q ≠ p) :
    alistFind (appendCsv fs q rows) p = alistFind fs p := by
  unfold appendCsv
  cases alistFind fs q <;> simp [alistFind_set_other _ _ _ _ h]

/-- Helper: any existing file content survives a CSV append as a prefix. -/
theorem appendCsv_prefix (fs : FS) (p q : String) (rows : List Row) (f : List Line)
    (h : alistFind fs p = some f) :
    ∃ g, alistFind (appendCsv fs q rows) p = some (f ++ g) := by
  by_cases hq : q = p
  · subst hq
    exact ⟨rows.map Line.row, appendCsv_find_existing fs q rows f h⟩
  · exact ⟨[], by rw [appendCsv_find_other fs p q rows hq, h, List.append_nil]⟩

/-- Helper: any existing file content survives the export download loop
as a prefix. -/
theorem exportDownload_prefix :
    ∀ (recs : List OutRecord) (fs : FS) (p : String) (f : List Line),
      alistFind fs p = some f →
      ∃ g, alistFind (exportDownload recs fs) p = some (f ++ g) := by
  intro recs
  induction recs with
  | nil => intro fs p f h; exact ⟨[], by simpa [exportDownload] using h⟩
  | cons rec rest ih =>
    intro fs p f h
    by_cases hst : rec.status = 200
    · have hap := appendCsv_prefix fs p (rec.dtype ++ ".csv") rec.rows f h
      rcases hap with ⟨g, hg⟩
      rcases ih (appendCsv fs (rec.dtype ++ ".csv") rec.rows) p (f ++ g) hg with ⟨g', hg'⟩
      refine ⟨g ++ g', ?_⟩
      simpa [exportDownload, hst, List.append_assoc] using hg'
    · rcases ih fs p f h with ⟨g, hg⟩
      exact ⟨g, by simpa [exportDownload, hst] using hg⟩

/-- Helper: any existing file content survives the refresh merge loop as
a prefix. -/
theorem mergeChunks_prefix (lastRows : List (String × DT × Nat)) (cat : String) :
    ∀ (chunks : List OutRecord) (fs fs' : FS) (p : String) (f : List Line),
      mergeChunks lastRows cat fs chunks = Except.ok fs' →
      alistFind fs p = some f →
      ∃ g, alistFind fs' p = some (f ++ g) := by
  intro chunks
  induction chunks with
  | nil =>
    intro fs fs' p f hm h
    cases hm
    exact ⟨[], by rw [h, List.append_nil]⟩
  | cons ch rest ih =>
    intro fs fs' p f hm h
    by_cases hst : ch.status = 200
    · cases hr : ch.rows with
      | nil =>
        rw [mergeChunks] at hm
        simp [mergeChunk, hst, hr] at hm
      | cons r0 rs =>
        cases ha : alistFind lastRows cat with
        | none =>
          rw [mergeChunks] at hm
          simp [mergeChunk, hst, hr, ha] at hm
        | some a =>
          by_cases hk : keyMatches r0 a
          · have hm' : mergeChunks lastRows cat (appendCsv fs (cat ++ ".csv") rs) rest
                = Except.ok fs' := by
              rw [mergeChunks] at hm
              simpa [mergeChunk, hst, hr, ha, hk] using hm
            rcases appendCsv_prefix fs p (cat ++ ".csv") rs f h with ⟨g, hg⟩
            rcases ih (appendCsv fs (cat ++ ".csv") rs) fs' p (f ++ g) hm' hg with ⟨g', hg'⟩
            exact ⟨g ++ g', by simpa [List.append_assoc] using hg'⟩
          · have hm' : mergeChunks lastRows cat
                (appendCsv fs (cat ++ ".csv") (r0 :: rs)) rest = Except.ok fs' := by
              rw [mergeChunks] at hm
              simpa [mergeChunk, hst, hr, ha, hk] using hm
            rcases appendCsv_prefix fs p (cat ++ ".csv") (r0 :: rs) f h with ⟨g, hg⟩
            rcases ih (appendCsv fs (cat ++ ".csv") (r0 :: rs)) fs' p (f ++ g) hm' hg
              with ⟨g', hg'⟩
            exact ⟨g ++ g', by simpa [List.append_assoc] using hg'⟩
    · have hm' : mergeChunks lastRows cat fs rest = Except.ok fs' := by
        rw [mergeChunks] at hm
        simpa [mergeChunk, hst] using hm
      exact ih fs fs' p f hm' h

/-- Helper: downloading a sequence of successful chunks of one dataset
into an existing file appends their rows in order, adding nothing else. -/
theorem exportDownload_chunks_existing (d : String) :
    ∀ (chunksRows : List (List Row)) (fs : FS) (f : List Line),
      alistFind fs (d ++ ".csv") = some f →
      alistFind (exportDownload (chunksRows.map (fun rs => ⟨d, 200, rs⟩)) fs)
          (d ++ ".csv")
        = some (f ++ (chunksRows.foldr (fun a b => a ++ b) []).map Line.row) := by
  intro chunksRows
  induction chunksRows with
  | nil => intro fs f h; simpa [exportDownload] using h
  | cons rs more ih =>
    intro fs f h
    have h1 : alistFind (appendCsv fs (d ++ ".csv") rs) (d ++ ".csv")
        = some (f ++ rs.map Line.row) :=
      appendCsv_find_existing fs (d ++ ".csv") rs f h
    have h2 := ih (appendCsv fs (d ++ ".csv") rs) (f ++ rs.map Line.row) h1
    simp only [List.map_cons, exportDownload, ne_eq, not_true_eq_false, if_false,
      reduceCtorEq, reduceIte] at h2 ⊢
    rw [h2]
    simp [List.map_append, List.append_assoc]

/-- C8: every CSV write in both the export path and the refresh path is
the append primitive that includes a header exactly when the file does
not yet exist: appending to an absent file creates it with one leading
header line, appending to an existing file appends the rows and adds no
header; an initial export of any number of successful chunks for one
dataset yields a file whose header occurs exactly once, followed by all
chunk rows in order; and both the export download loop and the refresh
merge loop only ever extend a file — existing content always survives as
a prefix, never rewritten or reordered. -/
theorem csv_append_header_discipline :
    (∀ (fs : FS) (p : String) (rows : List Row), alistFind fs p = none →
      alistFind (appendCsv fs p rows) p = some (Line.header :: rows.map Line.row))
    ∧ (∀ (fs : FS) (p : String) (rows : List Row) (f : List Line),
        alistFind fs p = some f →
        alistFind (appendCsv fs p rows) p = some (f ++ rows.map Line.row))
    ∧ (∀ (d : String) (rs : List Row) (more : List (List Row)) (fs : FS),
        alistFind fs (d ++ ".csv") = none →
        alistFind
            (exportDownload ((rs :: more).map (fun rows => ⟨d, 200, rows⟩)) fs)
            (d ++ ".csv")
          = some (Line.header ::
              ((rs :: more).foldr (fun a b => a ++ b) []).map Line.row)
        ∧ headerCount (Line.header ::
            ((rs :: more).foldr (fun a b => a ++ b) []).map Line.row) = 1)
    ∧ (∀ (recs : List OutRecord) (fs : FS) (p : String) (f : List Line),
        alistFind fs p = some f →
        ∃ g, alistFind (exportDownload recs fs) p = some (f ++ g))
    ∧ (∀ (lastRows : List (String × DT × Nat)) (cat : String)
        (chunks : List OutRecord) (fs fs' : FS) (p : String) (f : List Line),
        mergeChunks lastRows cat fs chunks = Except.ok fs' →
        alistFind fs p = some f →
        ∃ g, alistFind fs' p = some (f ++ g)) := by
  refine ⟨appendCsv_find_new, appendCsv_find_existing, ?_, exportDownload_prefix,
    fun lastRows cat chunks fs fs' p f hm h =>
      mergeChunks_prefix lastRows cat chunks fs fs' p f hm h⟩
  intro d rs more fs h
  constructor
  · have h1 : alistFind (appendCsv fs (d ++ ".csv") rs) (d ++ ".csv")
        = some (Line.header :: rs.map Line.row) :=
      appendCsv_find_new fs (d ++ ".csv") rs h
    have h2 := exportDownload_chunks_existing d more
      (appendCsv fs (d ++ ".csv") rs) (Line.header :: rs.map Line.row) h1
    simp only [List.map_cons, exportDownload, ne_eq, not_true_eq_false, if_false,
      reduceCtorEq, reduceIte] at h2 ⊢
    rw [h2]
    simp [List.map_append]
  · simp only [headerCount, List.countP_cons]
    have := headerCount_map_row (((rs :: more).foldr (fun a b => a ++ b) []))
    simp only [headerCount] at this
    simp [this]

/-- C8 (witness): the header-once conjunct at a concrete input: an
initial export of two one-row chunks of the same dataset into an empty
directory yields a file with one header line followed by both rows. -/
theorem csv_append_header_discipline_witness :
    alistFind
        (exportDownload
          [⟨"c", 200, [⟨T0, 42, "a"⟩]⟩, ⟨"c", 200, [⟨⟨2021, 10, 7, 0, 0, 0⟩, 43, "b"⟩]⟩]
          []) "c.csv"
      = some [Line.header, Line.row ⟨T0, 42, "a"⟩,
              Line.row ⟨⟨2021, 10, 7, 0, 0, 0⟩, 43, "b"⟩]
    ∧ headerCount [Line.header, Line.row ⟨T0, 42, "a"⟩,
        Line.row ⟨⟨2021, 10, 7, 0, 0, 0⟩, 43, "b"⟩] = 1 := by
  have h := csv_append_header_discipline.2.2.1 "c" [⟨T0, 42, "a"⟩]
    [[⟨⟨2021, 10, 7, 0, 0, 0⟩, 43, "b"⟩]] [] (by rfl)
  exact ⟨h.1, h.2⟩

/-- Helper: pointwise equal functions map a list equally. -/
theorem map_eq_on_mem {α β : Type} (l : List α) (f g : α → β)
    (h : ∀ a ∈ l, f a = g a) : l.map f = l.map g := by
  induction l with
  | nil => rfl
  | cons a rest ih =>
    simp only [List.map_cons, h a (List.mem_cons_self a rest),
      ih (fun b hb => h b (List.mem_cons_of_mem a hb))]

/-- Helper: a fresh handle is the round-0 closed form. -/
theorem handleAt_zero (sched : Nat → Nat) (k : Nat) :
    handleAt sched k 0 = ⟨true, 0, none⟩ := by
  simp [handleAt]

/-- Helper: the initial tracking state is the round-0 closed form. -/
theorem mkState_eq_stateAt (sched : String → Nat → Nat) (k : String → Nat)
    (cats : List String) : mkState cats = stateAt sched k 0 cats := by
  unfold mkState stateAt
  exact map_eq_on_mem cats _ _ (fun c _ => by rw [handleAt_zero])

/-- Helper: one poll step takes a handle's round-`n` closed form to its
round-`n + 1` closed form. -/
theorem pollStep_handleAt (sched : Nat → Nat) (k n : Nat) (h : firstTerm sched k) :
    pollStep sched (handleAt sched k n) = handleAt sched k (n + 1) := by
  by_cases hnk : n ≤ k
  · have hw : (handleAt sched k n).waiting = true := by simp [handleAt, hnk]
    rw [pollStep, if_pos hw]
    have hq : (handleAt sched k n).queries = n := by
      simp only [handleAt]
      omega
    rw [hq]
    have hmin1 : min (n + 1) (k + 1) = n + 1 := by omega
    have hmin2 : min (n + 1 - 1) k = n := by omega
    simp only [handleAt, hmin1, hmin2, Nat.succ_ne_zero, if_false]
    rcases Nat.lt_or_ge n k with hlt | hge
    · have hs : sched n = 202 := h.2 n hlt
      have hd : n + 1 ≤ k := hlt
      simp [hs, hd]
    · have hnk' : n = k := Nat.le_antisymm hnk hge
      subst hnk'
      have hd : ¬ (n + 1 ≤ n) := by omega
      simp [hd, beq_eq_false_iff_ne, h.1]
  · have hw : (handleAt sched k n).waiting = false := by simp [handleAt, hnk]
    rw [pollStep, if_neg (by simp [hw])]
    have h1 : min n (k + 1) = k + 1 := by omega
    have h2 : min (n + 1) (k + 1) = k + 1 := by omega
    have h3 : min (n - 1) k = k := by omega
    have h4 : min (n + 1 - 1) k = k := by omega
    have h5 : n ≠ 0 := by omega
    have h6 : ¬ (n + 1 ≤ k) := by omega
    have h7 : min n k = k := by omega
    simp [handleAt, h1, h2, h3, h4, h5, h6, h7, hnk]

/-- Helper: one poll round takes the whole round-`n` closed form to the
round-`n + 1` closed form. -/
theorem pollRound_stateAt (sched : String → Nat → Nat) (k : String → Nat)
    (cats : List String) (n : Nat) (h : ∀ c ∈ cats, firstTerm (sched c) (k c)) :
    pollRound sched (stateAt sched k n cats) = stateAt sched k (n + 1) cats := by
  induction cats with
  | nil => rfl
  | cons c rest ih =>
    have hc := pollStep_handleAt (sched c) (k c) n (h c (List.mem_cons_self c rest))
    have hr := ih (fun b hb => h b (List.mem_cons_of_mem c hb))
    simp only [stateAt, List.map_cons, pollRound] at hr ⊢
    simp [hc, hr]

/-- Helper: some handle is still waited for after `n` rounds exactly when
some handle's status sequence has not yet resolved. -/
theorem anyWaiting_stateAt (sched : String → Nat → Nat) (k : String → Nat)
    (n : Nat) (cats : List String) :
    anyWaiting (stateAt sched k n cats) = true ↔ ∃ c ∈ cats, n ≤ k c := by
  simp [anyWaiting, stateAt, handleAt, List.any_eq_true]

/-- Helper: every tracked handle's resolution bound is within the round
count. -/
theorem le_maxRounds (k : String → Nat) :
    ∀ (cats : List String) (c : String), c ∈ cats → k c + 1 ≤ maxRounds k cats := by
  intro cats
  induction cats with
  | nil => intro c hc; simp at hc
  | cons a rest ih =>
    intro c hc
    rcases List.mem_cons.mp hc with rfl | hmem
    · simp only [maxRounds, List.foldr_cons]
      omega
    · have := ih c hmem
      simp only [maxRounds, List.foldr_cons] at this ⊢
      omega

/-- Helper: a round index below the round count leaves some handle not
yet resolved. -/
theorem exists_of_lt_maxRounds (k : String → Nat) :
    ∀ (cats : List String) (t : Nat), t < maxRounds k cats → ∃ c ∈ cats, t ≤ k c := by
  intro cats
  induction cats with
  | nil => intro t ht; simp [maxRounds] at ht
  | cons a rest ih =>
    intro t ht
    simp only [maxRounds, List.foldr_cons] at ht
    by_cases ha : t ≤ k a
    · exact ⟨a, List.mem_cons_self a rest, ha⟩
    · have ht' : t < maxRounds k rest := by
        simp only [maxRounds]
        omega
      rcases ih t ht' with ⟨c, hc, hkc⟩
      exact ⟨c, List.mem_cons_of_mem a hc, hkc⟩

/-- Helper: with every handle's resolution index known, the parallel poll
loop started at the round-`n` closed form runs exactly the remaining
`d` rounds (one sleep between consecutive rounds, none after the last)
and stops in the fully resolved closed form. -/
theorem pollLoop_run (sched : String → Nat → Nat) (k : String → Nat)
    (cats : List String) (h : ∀ c ∈ cats, firstTerm (sched c) (k c)) :
    ∀ d, 1 ≤ d → ∀ n, n + d = max (maxRounds k cats) 1 →
      ∀ fuel r s, d ≤ fuel →
        pollLoop sched fuel (stateAt sched k n cats) r s
          = Except.ok (stateAt sched k (max (maxRounds k cats) 1) cats,
              r + d, s + (d - 1)) := by
  intro d
  induction d with
  | zero => intro hd; omega
  | succ d ih =>
    intro _ n hn fuel r s hfuel
    obtain ⟨f, rfl⟩ : ∃ f, fuel = f + 1 := ⟨fuel - 1, by omega⟩
    simp only [pollLoop]
    rw [pollRound_stateAt sched k cats n h]
    by_cases hlast : d = 0
    · subst hlast
      have hfalse : anyWaiting (stateAt sched k (n + 1) cats) = false := by
        rw [Bool.eq_false_iff]
        intro htrue
        rcases (anyWaiting_stateAt sched k (n + 1) cats).mp htrue with ⟨c, hc, hle⟩
        have := le_maxRounds k cats c hc
        omega
      rw [if_neg (by simp [hfalse])]
      rw [hn]
      norm_num
    · have htrue : anyWaiting (stateAt sched k (n + 1) cats) = true := by
        apply (anyWaiting_stateAt sched k (n + 1) cats).mpr
        have hlt : n + 1 < maxRounds k cats := by omega
        exact exists_of_lt_maxRounds k cats (n + 1) hlt
      rw [if_pos (by simp [htrue])]
      have hrec := ih (by omega) (n + 1) (by omega) f (r + 1) (s + 1) (by omega)
      rw [hrec]
      have e1 : r + 1 + d = r + (d + 1) := by omega
      have e2 : s + 1 + (d - 1) = s + (d + 1 - 1) := by omega
      rw [e1, e2]

/-- Helper: with insufficient fuel the parallel poll loop does not stop:
it is still running (some handle pending) when the fuel runs out. -/
theorem pollLoop_fuelOut (sched : String → Nat → Nat) (k : String → Nat)
    (cats : List String) (h : ∀ c ∈ cats, firstTerm (sched c) (k c)) :
    ∀ fuel n r s, n + fuel < max (maxRounds k cats) 1 →
      pollLoop sched fuel (stateAt sched k n cats) r s
        = Except.error Err.outOfFuel := by
  intro fuel
  induction fuel with
  | zero => intro n r s _; rfl
  | succ f ih =>
    intro n r s hlt
    simp only [pollLoop]
    rw [pollRound_stateAt sched k cats n h]
    have htrue : anyWaiting (stateAt sched k (n + 1) cats) = true := by
      apply (anyWaiting_stateAt sched k (n + 1) cats).mpr
      have hlt' : n + 1 < maxRounds k cats := by omega
      exact exists_of_lt_maxRounds k cats (n + 1) hlt'
    rw [if_pos (by simp [htrue])]
    exact ih (n + 1) (r + 1) (s + 1) (by omega)

/-- Helper: a poll step keeps the terminal-status invariant of a handle. -/
theorem pollStep_inv (sched : Nat → Nat) (h : HState)
    (hh : h.waiting = false → ∃ v, h.status = some v ∧ v ≠ 202) :
    (pollStep sched h).waiting = false →
      ∃ v, (pollStep sched h).status = some v ∧ v ≠ 202 := by
  by_cases hw : h.waiting
  · simp only [pollStep, hw, if_true]
    intro hfalse
    refine ⟨sched h.queries, rfl, ?_⟩
    simpa [beq_eq_false_iff_ne] using hfalse
  · have hwf : h.waiting = false := by simpa using hw
    simp only [pollStep, hwf, Bool.false_eq_true, if_false]
    intro _
    exact hh hwf

/-- Helper: a poll round keeps the terminal-status invariant. -/
theorem pollRound_inv (sched : String → Nat → Nat) (st : List (String × HState))
    (hinv : invTerm st) : invTerm (pollRound sched st) := by
  intro p hp hw
  rcases List.mem_map.mp hp with ⟨q, hq, rfl⟩
  exact pollStep_inv (sched q.1) q.2 (hinv q hq) hw

/-- Helper: if no handle is waited for, every handle's flag is down. -/
theorem anyWaiting_false_all (st : List (String × HState))
    (h : anyWaiting st = false) : ∀ p ∈ st, p.2.waiting = false := by
  intro p hp
  have := List.any_eq_false.mp h p hp
  simpa using this

/-- Helper: the initial tracking state satisfies the terminal-status
invariant vacuously. -/
theorem invTerm_mkState (cats : List String) : invTerm (mkState cats) := by
  intro p hp hw
  rcases List.mem_map.mp hp with ⟨c, _, rfl⟩
  simp at hw

/-- Helper: whenever the parallel poll loop stops normally, every handle
has its flag down and an observed terminal status. -/
theorem pollLoop_inv (sched : String → Nat → Nat) :
    ∀ (fuel : Nat) (st : List (String × HState)) (r s : Nat)
      (res : List (String × HState) × Nat × Nat),
      invTerm st → pollLoop sched fuel st r s = Except.ok res →
      ∀ p ∈ res.1, p.2.waiting = false ∧ ∃ v, p.2.status = some v ∧ v ≠ 202 := by
  intro fuel
  induction fuel with
  | zero => intro st r s res _ hloop; cases hloop
  | succ f ih =>
    intro st r s res hinv hloop
    simp only [pollLoop] at hloop
    by_cases hany : anyWaiting (pollRound sched st) = true
    · rw [if_pos (by simp [hany])] at hloop
      exact ih (pollRound sched st) (r + 1) (s + 1) res (pollRound_inv sched st hinv) hloop
    · rw [if_neg (by simpa using hany)] at hloop
      cases hloop
      intro p hp
      have hw : p.2.waiting = false :=
        anyWaiting_false_all _ (by simpa using hany) p hp
      exact ⟨hw, pollRound_inv sched st hinv p hp hw⟩

/-- C4: the parallel polling loop of `_export_request_parallel`
terminates exactly when every tracked handle has reached a terminal
(non-202) status.  On the empty handle map it returns the empty result
after the single mandatory pass, with no sleep.  Whenever it stops
normally, every handle's flag is down and its last observed status is
terminal — it never stops while some handle is still pending.  And when
each handle's status sequence resolves at a known query index, the loop
stops (given enough fuel) in exactly `max (maxRounds k cats) 1` rounds
with `rounds - 1` sleeps, while with less fuel it is still running. -/
theorem parallel_poll_termination :
    (∀ (sched : String → Nat → Nat) (fuel r s : Nat),
      pollLoop sched (fuel + 1) (mkState []) r s = Except.ok ([], r + 1, s))
    ∧ (∀ (sched : String → Nat → Nat) (fuel : Nat) (cats : List String) (r s : Nat)
        (res : List (String × HState) × Nat × Nat),
        pollLoop sched fuel (mkState cats) r s = Except.ok res →
        ∀ p ∈ res.1, p.2.waiting = false ∧ ∃ v, p.2.status = some v ∧ v ≠ 202)
    ∧ (∀ (sched : String → Nat → Nat) (k : String → Nat) (cats : List String),
        (∀ c ∈ cats, firstTerm (sched c) (k c)) →
        (∀ fuel, max (maxRounds k cats) 1 ≤ fuel →
          pollLoop sched fuel (mkState cats) 0 0
            = Except.ok (stateAt sched k (max (maxRounds k cats) 1) cats,
                max (maxRounds k cats) 1, max (maxRounds k cats) 1 - 1))
        ∧ (∀ fuel, fuel < max (maxRounds k cats) 1 →
          pollLoop sched fuel (mkState cats) 0 0 = Except.error Err.outOfFuel)) := by
  refine ⟨?_, ?_, ?_⟩
  · intro sched fuel r s
    rfl
  · intro sched fuel cats r s res hloop
    exact pollLoop_inv sched fuel (mkState cats) r s res (invTerm_mkState cats) hloop
  · intro sched k cats hft
    constructor
    · intro fuel hfuel
      rw [mkState_eq_stateAt sched k cats]
      have h := pollLoop_run sched k cats hft (max (maxRounds k cats) 1)
        (by omega) 0 (by omega) fuel 0 0 hfuel
      simpa using h
    · intro fuel hfuel
      rw [mkState_eq_stateAt sched k cats]
      exact pollLoop_fuelOut sched k cats hft fuel 0 0 0 (by omega)

/-- C4 (witness): the termination conjunct at a concrete input: one
handle whose first status answer is 500 makes the loop stop after one
round with no sleep, recording the failure. -/
theorem parallel_poll_termination_witness :
    pollLoop (fun _ _ => 500) 1 (mkState ["a"]) 0 0
      = Except.ok ([("a", ⟨false, 1, some 500⟩)], 1, 0) := by
  have hft : ∀ c ∈ ["a"], firstTerm ((fun _ _ => 500) c) ((fun _ => 0) c) := by
    intro c _
    constructor
    · intro hcon
      simp at hcon
    · intro j hj
      simp at hj
  have h := (parallel_poll_termination.2.2 (fun _ _ => 500) (fun _ => 0) ["a"] hft).1
    1 (by decide)
  simpa [stateAt, handleAt] using h

/-- C5: when every tracked handle's status sequence is
`[202, 202, complete]` (kind `true`) or `[202, failed]` (kind `false`),
the parallel polling loop stops after exactly as many rounds as the
longest such sequence (the fold of the per-handle sequence lengths
`kAB kind c + 1`), recording for each handle its correct terminal status
(`200` for the complete sequence, `500` for the failed one); each handle
is queried exactly `kAB kind c + 1` times — once per round while
outstanding and never again after reaching its terminal status. -/
theorem parallel_poll_rounds (kind : String → Bool) (cats : List String)
    (fuel : Nat) (hne : cats ≠ [])
    (hfuel : maxRounds (kAB kind) cats ≤ fuel) :
    pollLoop (schedAB kind) fuel (mkState cats) 0 0
      = Except.ok
          (cats.map (fun c =>
            (c, ⟨false, kAB kind c + 1, some (if kind c then 200 else 500)⟩)),
           maxRounds (kAB kind) cats, maxRounds (kAB kind) cats - 1)
    ∧ maxRounds (kAB kind) cats
        = cats.foldr (fun c acc => max (kAB kind c + 1) acc) 0 := by
  have hft : ∀ c ∈ cats, firstTerm (schedAB kind c) (kAB kind c) := by
    intro c _
    by_cases hk : kind c
    · refine ⟨by simp [schedAB, kAB, hk], ?_⟩
      intro j hj
      simp only [kAB, hk, if_true] at hj
      simp [schedAB, hk, hj]
    · have hkf : kind c = false := by simpa using hk
      refine ⟨by simp [schedAB, kAB, hkf], ?_⟩
      intro j hj
      simp only [kAB, hkf, Bool.false_eq_true, if_false] at hj
      have hj0 : j = 0 := by omega
      simp [schedAB, hkf, hj0]
  have hN1 : 1 ≤ maxRounds (kAB kind) cats := by
    rcases List.exists_mem_of_ne_nil cats hne with ⟨c, hc⟩
    have := le_maxRounds (kAB kind) cats c hc
    omega
  have hmax : max (maxRounds (kAB kind) cats) 1 = maxRounds (kAB kind) cats := by omega
  refine ⟨?_, rfl⟩
  have h := (parallel_poll_termination.2.2 (schedAB kind) (kAB kind) cats hft).1
    fuel (by omega)
  rw [hmax] at h
  rw [h]
  have hstate : stateAt (schedAB kind) (kAB kind) (maxRounds (kAB kind) cats) cats
      = cats.map (fun c =>
          (c, ⟨false, kAB kind c + 1, some (if kind c then 200 else 500)⟩)) := by
    unfold stateAt
    apply map_eq_on_mem
    intro c hc
    have hb := le_maxRounds (kAB kind) cats c hc
    have hw : ¬ (maxRounds (kAB kind) cats ≤ kAB kind c) := by omega
    have hq : min (maxRounds (kAB kind) cats) (kAB kind c + 1) = kAB kind c + 1 := by
      omega
    have hn0 : maxRounds (kAB kind) cats ≠ 0 := by omega
    have hm : min (maxRounds (kAB kind) cats - 1) (kAB kind c) = kAB kind c := by
      omega
    simp only [handleAt, hq, hn0, if_false, hm, hw, decide_eq_false]
    by_cases hk : kind c
    · simp [schedAB, kAB, hk]
    · simp [schedAB, kAB, hk]
  rw [hstate]

/-- C5 (witness): the theorem at a concrete input: handle `a` with
sequence `[202, 202, complete]` and handle `b` with `[202, failed]`
resolve in three rounds with two sleeps; `a` is queried three times and
ends complete (200), `b` twice and ends failed (500). -/
theorem parallel_poll_rounds_witness :
    pollLoop (schedAB (fun c => c == "a")) 3 (mkState ["a", "b"]) 0 0
      = Except.ok ([("a", ⟨false, 3, some 200⟩), ("b", ⟨false, 2, some 500⟩)], 3, 2) := by
  have h := (parallel_poll_rounds (fun c => c == "a") ["a", "b"] 3 (by decide)
    (by decide)).1
  simpa [kAB, maxRounds] using h
